import Mathlib

/-!
Shallow embedding of `model/model.go` (package `model` of ninjabot).

Modelling conventions:
* Go `float64` is modelled as `ℚ`.  All arithmetic the claims exercise is
  addition, subtraction, division by small constants, `math.Max`/`math.Min`
  and comparisons, which agree with rational arithmetic on finite values.
  (Division by zero yields `0` in `ℚ` where Go would yield `±Inf`/`NaN`;
  no claim forces a division by zero on both sides of an equation.)
* Go `time.Time` is modelled as `Int` (nanoseconds since epoch);
  `t2.Sub(t1)` is `t2 - t1`.
* Go slices are modelled as `List`; out-of-range reads, which panic in Go,
  are modelled with `List.getD _ 0` (claims only exercise in-bounds
  indices, guarded by length-alignment hypotheses).
* Mutation is modelled by explicit state passing: a method mutating its
  receiver returns the new value, and `HeikinAshi.CalculateHeikinAshi`
  returns the computed candle together with the updated recurrence state.
-/

/-- Modelled from the spec: `Series[T]` (a generic ordered sequence type used
for the float64 and time columns) is declared outside `model/model.go`;
the spec describes it as "parallel ordered sequences", i.e. a plain list. -/
abbrev Series (α : Type) : Type := List α

structure Balance where
  Asset : String
  Free : ℚ
  Lock : ℚ
  Leverage : ℚ
deriving Repr, DecidableEq

/-- The zero value of `Balance` (Go `var b Balance`). -/
def Balance.zero : Balance := ⟨"", 0, 0, 0⟩

structure Candle where
  Pair : String
  Time : Int
  UpdatedAt : Int
  Open : ℚ
  Close : ℚ
  Low : ℚ
  High : ℚ
  Volume : ℚ
  Complete : Bool
  Metadata : List (String × ℚ)
deriving Repr, DecidableEq

/-- The zero value of `Candle` (Go `var c Candle` / `Candle{}`). -/
def Candle.zero : Candle := ⟨"", 0, 0, 0, 0, 0, 0, 0, false, []⟩

/-- `func (c Candle) Empty() bool` -/
def Candle.Empty (c : Candle) : Bool :=
  c.Pair == "" && c.Close == 0 && c.Open == 0 && c.Volume == 0

/-- `func (c Candle) Less(j Item) bool`.  The `Item` interface lives outside
this file; `Less` immediately type-asserts `j.(Candle)`, so it is modelled
on two candles directly (a non-`Candle` argument panics in Go). -/
def Candle.Less (c j : Candle) : Bool :=
  let diff := j.Time - c.Time
  if diff < 0 then false
  else if diff > 0 then true
  else
    let diff2 := j.UpdatedAt - c.UpdatedAt
    if diff2 < 0 then false
    else if diff2 > 0 then true
    else decide (c.Pair < j.Pair)

structure HeikinAshi where
  PreviousHACandle : Candle
deriving Repr, DecidableEq

/-- `func NewHeikinAshi() *HeikinAshi` (zero-valued previous candle). -/
def NewHeikinAshi : HeikinAshi := ⟨Candle.zero⟩

/-- `func (ha *HeikinAshi) CalculateHeikinAshi(c Candle) Candle`.
Returns the computed candle together with the updated state
(`ha.PreviousHACandle = hkCandle`). -/
def HeikinAshi.CalculateHeikinAshi (ha : HeikinAshi) (c : Candle) :
    Candle × HeikinAshi :=
  let openValue := ha.PreviousHACandle.Open
  let closeValue := ha.PreviousHACandle.Close
  -- First HA candle is calculated using current candle
  let openValue := if ha.PreviousHACandle.Empty then c.Open else openValue
  let closeValue := if ha.PreviousHACandle.Empty then c.Close else closeValue
  let hkOpen := (openValue + closeValue) / 2
  let hkClose := (c.Open + c.High + c.Low + c.Close) / 4
  let hkHigh := max c.High (max hkOpen hkClose)
  let hkLow := min c.Low (min hkOpen hkClose)
  let hkCandle : Candle :=
    { Candle.zero with Open := hkOpen, Close := hkClose, High := hkHigh, Low := hkLow }
  (hkCandle, ⟨hkCandle⟩)

/-- `func (c Candle) ToHeikinAshi(ha *HeikinAshi) Candle`. -/
def Candle.ToHeikinAshi (c : Candle) (ha : HeikinAshi) : Candle × HeikinAshi :=
  let res := ha.CalculateHeikinAshi c
  let haCandle := res.1
  ({ Pair := c.Pair
     Open := haCandle.Open
     High := haCandle.High
     Low := haCandle.Low
     Close := haCandle.Close
     Volume := c.Volume
     Complete := c.Complete
     Time := c.Time
     UpdatedAt := c.UpdatedAt
     Metadata := [] }, res.2)

structure Account where
  Balances : List Balance
deriving Repr, DecidableEq

/-- The loop of `func (a Account) Balance(assetTick, quoteTick string)`:
walks the balances; a `switch` on `balance.Asset` assigns the matching slot
(`case assetTick` is tried before `case quoteTick`), and the loop breaks as
soon as both slots have been assigned. -/
def Account.balanceScan (assetTick quoteTick : String) :
    List Balance → Balance → Balance → Bool → Bool → Balance × Balance
  | [], assetBalance, quoteBalance, _, _ => (assetBalance, quoteBalance)
  | b :: rest, assetBalance, quoteBalance, isSetAsset, isSetQuote =>
    let assetBalance' := if b.Asset = assetTick then b else assetBalance
    let isSetAsset' := if b.Asset = assetTick then true else isSetAsset
    let quoteBalance' :=
      if b.Asset ≠ assetTick ∧ b.Asset = quoteTick then b else quoteBalance
    let isSetQuote' :=
      if b.Asset ≠ assetTick ∧ b.Asset = quoteTick then true else isSetQuote
    if isSetAsset' && isSetQuote' then (assetBalance', quoteBalance')
    else Account.balanceScan assetTick quoteTick rest
      assetBalance' quoteBalance' isSetAsset' isSetQuote'

/-- `func (a Account) Balance(assetTick, quoteTick string) (Balance, Balance)` -/
def Account.Balance (a : Account) (assetTick quoteTick : String) :=
  Account.balanceScan assetTick quoteTick a.Balances Balance.zero Balance.zero false false

/-- `func (a Account) Equity() float64` -/
def Account.Equity (a : Account) : ℚ :=
  a.Balances.foldl (fun total b => total + b.Free + b.Lock) 0

/-- `type OHLC struct` — the series container of parallel sequences. -/
structure OHLC where
  Close : Series ℚ
  Open : Series ℚ
  High : Series ℚ
  Low : Series ℚ
  Volume : Series ℚ
  ChangePercent : Series ℚ
  IsBullMarket : List Bool
  Time : List Int
  IsHeikinAshi : Bool
deriving Repr, DecidableEq

/-- `func (df *OHLC) HL2() []float64`: the Go loop appends
`(df.High[i]+df.Low[i])/2` for each index of `df.Close`
(an out-of-range read panics in Go; modelled as `getD _ 0`). -/
def OHLC.HL2 (df : OHLC) : List ℚ :=
  (List.range df.Close.length).map fun i => (df.High.getD i 0 + df.Low.getD i 0) / 2

/-- `func (df *OHLC) HLC3() []float64` -/
def OHLC.HLC3 (df : OHLC) : List ℚ :=
  (List.range df.Close.length).map fun i =>
    (df.High.getD i 0 + df.Low.getD i 0 + df.Close.getD i 0) / 3

/-- `func (df *OHLC) OHLC4() []float64` -/
def OHLC.OHLC4 (df : OHLC) : List ℚ :=
  (List.range df.Close.length).map fun i =>
    (df.Open.getD i 0 + df.High.getD i 0 + df.Low.getD i 0 + df.Close.getD i 0) / 4

/-- `func (df *OHLC) Candle(i int) Candle`: the per-index candle view
(remaining fields are Go zero values). -/
def OHLC.Candle (df : OHLC) (i : Nat) : Candle :=
  { Candle.zero with
    Time := df.Time.getD i 0
    Open := df.Open.getD i 0
    Close := df.Close.getD i 0
    Low := df.Low.getD i 0
    High := df.High.getD i 0
    Volume := df.Volume.getD i 0 }

/-- `func (df *OHLC) Last(index ...int) Candle`: the variadic `index`
parameter is modelled as a list whose head, if any, is the offset
(Go's `int` offsets exercised by the claims are non-negative). -/
def OHLC.Last (df : OHLC) (index : List Nat) :=
  let length := df.Close.length
  if length = 0 then Candle.zero
  else
    let position := match index with
      | [] => 0
      | p :: _ => p
    df.Candle (length - 1 - position)

/-- One iteration of the loop in `func (df *OHLC) ToHeikinAshi() *OHLC`:
read the candle at index `i`, smooth it through the recurrence, write the
five core entries back at `i`, then derive `ChangePercent` and
`IsBullMarket` at `i` from the freshly written values. -/
def OHLC.haStep (st : OHLC × HeikinAshi) (i : Nat) : OHLC × HeikinAshi :=
  let candle := st.1.Candle i
  let cr := candle.ToHeikinAshi st.2
  let c2 := cr.1
  let g : OHLC := { st.1 with
    Close := st.1.Close.set i c2.Close
    Open := st.1.Open.set i c2.Open
    Low := st.1.Low.set i c2.Low
    High := st.1.High.set i c2.High
    Volume := st.1.Volume.set i c2.Volume }
  let g2 : OHLC := { g with
    ChangePercent := g.ChangePercent.set i
      ((g.Close.getD i 0 - g.Open.getD i 0) / g.Open.getD i 0)
    IsBullMarket := if g.Close.getD i 0 > g.Open.getD i 0
      then g.IsBullMarket.set i true else g.IsBullMarket }
  (g2, cr.2)

/-- `func (df *OHLC) ToHeikinAshi() *OHLC`: fresh recurrence,
`ChangePercent`/`IsBullMarket` re-made with `len(df.Close)` zero values,
loop over the indices of `df.Time` in ascending order, finally
`IsHeikinAshi = true`; mutates and returns the receiver. -/
def OHLC.ToHeikinAshi (df : OHLC) : OHLC :=
  let df1 : OHLC := { df with
    ChangePercent := List.replicate df.Close.length 0
    IsBullMarket := List.replicate df.Close.length false }
  let res := (List.range df1.Time.length).foldl OHLC.haStep (df1, NewHeikinAshi)
  { res.1 with IsHeikinAshi := true }

/-- Reference scan: smooth a list of candles in order through one
recurrence (the functional reading of repeated `Candle.ToHeikinAshi`). -/
def haScan (ha : HeikinAshi) : List Candle → List Candle
  | [] => []
  | c :: cs => (c.ToHeikinAshi ha).1 :: haScan (c.ToHeikinAshi ha).2 cs

/-- State of the recurrence after scanning a list of candles. -/
def haScanState (ha : HeikinAshi) : List Candle → HeikinAshi
  | [] => ha
  | c :: cs => haScanState (c.ToHeikinAshi ha).2 cs

/-- `type Dataframe struct` — Go embeds `OHLC` (here: `extends`). -/
structure Dataframe extends OHLC where
  Pair : String
  LastUpdate : Int
  Metadata : List (String × Series ℚ)
deriving Repr, DecidableEq

/-- `func (df Dataframe) Sample(positions int) Dataframe`: keeps the last
`positions` entries of the six core sequences when the series is longer
than `positions`, otherwise returns the input unchanged; the metadata map
is not resliced. -/
def Dataframe.Sample (df : Dataframe) (positions : Int) : Dataframe :=
  let sample := df
  let size : Int := sample.Time.length
  let start := size - positions
  if start ≤ 0 then df
  else
    { sample with
      Close := sample.Close.drop start.toNat
      Open := sample.Open.drop start.toNat
      Low := sample.Low.drop start.toNat
      High := sample.High.drop start.toNat
      Volume := sample.Volume.drop start.toNat
      Time := sample.Time.drop start.toNat }

/-- Concrete three-entry series used by witnesses. -/
def ohlc3 : OHLC :=
  { Close := [1, 2, 3], Open := [2, 3, 4], High := [5, 6, 7], Low := [0, 1, 2],
    Volume := [10, 11, 12], ChangePercent := [], IsBullMarket := [],
    Time := [100, 200, 300], IsHeikinAshi := false }

/-- The empty series, used by witnesses. -/
def ohlc0 : OHLC :=
  { Close := [], Open := [], High := [], Low := [], Volume := [],
    ChangePercent := [], IsBullMarket := [], Time := [], IsHeikinAshi := false }

/-- Concrete dataframe used by the sampling witness. -/
def dfSampleEx : Dataframe :=
  { toOHLC := ohlc3, Pair := "BTCUSDT", LastUpdate := 0, Metadata := [("m", [9])] }

/-- Helper: a call on a recurrence whose stored candle is not the sentinel
computes `open'` from the stored candle's open/close. -/
theorem calculateHeikinAshi_open_of_not_sentinel (ha : HeikinAshi) (c : Candle)
    (h : ha.PreviousHACandle.Empty = false) :
    (ha.CalculateHeikinAshi c).1.Open
      = (ha.PreviousHACandle.Open + ha.PreviousHACandle.Close) / 2 := by
  simp [HeikinAshi.CalculateHeikinAshi, h]

/-- Helper: a call on a recurrence whose stored candle is the sentinel
self-seeds `open'` from the current candle's own open/close. -/
theorem calculateHeikinAshi_open_of_sentinel (ha : HeikinAshi) (c : Candle)
    (h : ha.PreviousHACandle.Empty = true) :
    (ha.CalculateHeikinAshi c).1.Open = (c.Open + c.Close) / 2 := by
  simp [HeikinAshi.CalculateHeikinAshi, h]

/-- C1: on the first call of a fresh Heikin Ashi recurrence (the stored
previous candle is the empty sentinel), `CalculateHeikinAshi` on a raw
candle `c` self-seeds: `open' = (c.Open + c.Close)/2`,
`close' = (c.Open + c.High + c.Low + c.Close)/4`,
`high' = max(c.High, open', close')` and `low' = min(c.Low, open', close')`. -/
theorem heikinAshi_first_call_spec (ha : HeikinAshi) (c : Candle)
    (h : ha.PreviousHACandle.Empty = true) :
    ((ha.CalculateHeikinAshi c).1.Open = (c.Open + c.Close) / 2) ∧
    ((ha.CalculateHeikinAshi c).1.Close = (c.Open + c.High + c.Low + c.Close) / 4) ∧
    ((ha.CalculateHeikinAshi c).1.High =
      max c.High (max ((c.Open + c.Close) / 2) ((c.Open + c.High + c.Low + c.Close) / 4))) ∧
    ((ha.CalculateHeikinAshi c).1.Low =
      min c.Low (min ((c.Open + c.Close) / 2) ((c.Open + c.High + c.Low + c.Close) / 4))) := by
  simp [HeikinAshi.CalculateHeikinAshi, h]

/-- C1 witness: the fresh recurrence on the raw candle
`{open:10, close:20, high:25, low:5}` produces
`open' = 15`, `close' = 15`, `high' = 25`, `low' = 5`. -/
theorem heikinAshi_first_call_spec_witness :
    (NewHeikinAshi.PreviousHACandle.Empty = true) ∧
    ((NewHeikinAshi.CalculateHeikinAshi
        { Candle.zero with Open := 10, Close := 20, High := 25, Low := 5 }).1.Open
      = ({ Candle.zero with Open := 10, Close := 20, High := 25, Low := 5 : Candle }.Open
          + { Candle.zero with Open := 10, Close := 20, High := 25, Low := 5 : Candle }.Close) / 2) ∧
    ((NewHeikinAshi.CalculateHeikinAshi
        { Candle.zero with Open := 10, Close := 20, High := 25, Low := 5 }).1.Open = 15) ∧
    ((NewHeikinAshi.CalculateHeikinAshi
        { Candle.zero with Open := 10, Close := 20, High := 25, Low := 5 }).1.Close = 15) ∧
    ((NewHeikinAshi.CalculateHeikinAshi
        { Candle.zero with Open := 10, Close := 20, High := 25, Low := 5 }).1.High = 25) ∧
    ((NewHeikinAshi.CalculateHeikinAshi
        { Candle.zero with Open := 10, Close := 20, High := 25, Low := 5 }).1.Low = 5) :=
  ⟨by decide,
   (heikinAshi_first_call_spec NewHeikinAshi
      { Candle.zero with Open := 10, Close := 20, High := 25, Low := 5 } (by decide)).1,
   by norm_num [NewHeikinAshi, HeikinAshi.CalculateHeikinAshi, Candle.Empty, Candle.zero],
   by norm_num [NewHeikinAshi, HeikinAshi.CalculateHeikinAshi, Candle.Empty, Candle.zero],
   by norm_num [NewHeikinAshi, HeikinAshi.CalculateHeikinAshi, Candle.Empty, Candle.zero],
   by norm_num [NewHeikinAshi, HeikinAshi.CalculateHeikinAshi, Candle.Empty, Candle.zero]⟩

/-- C2 counterexample: the claim "each subsequent call's `open'` equals the
average of the previous call's smoothed open and close" fails when the
previous smoothed candle happens to be the empty sentinel (open' = close' = 0):
feeding `{open:10, close:-10, high:10, low:-10}` first makes the stored
smoothed candle have open' = close' = 0, and the next call on
`{open:2, close:4, high:4, low:2}` self-seeds, returning open' = 3, not
`(0 + 0)/2 = 0`. -/
theorem heikinAshi_recurrence_counterexample :
    ((NewHeikinAshi.CalculateHeikinAshi
        { Candle.zero with Open := 10, Close := -10, High := 10, Low := -10 }).2.PreviousHACandle
      = (NewHeikinAshi.CalculateHeikinAshi
        { Candle.zero with Open := 10, Close := -10, High := 10, Low := -10 }).1) ∧
    ¬ (((NewHeikinAshi.CalculateHeikinAshi
          { Candle.zero with Open := 10, Close := -10, High := 10, Low := -10 }).2.CalculateHeikinAshi
            { Candle.zero with Open := 2, Close := 4, High := 4, Low := 2 }).1.Open
        = ((NewHeikinAshi.CalculateHeikinAshi
            { Candle.zero with Open := 10, Close := -10, High := 10, Low := -10 }).1.Open
          + (NewHeikinAshi.CalculateHeikinAshi
            { Candle.zero with Open := 10, Close := -10, High := 10, Low := -10 }).1.Close) / 2) := by
  constructor
  · rfl
  · norm_num [NewHeikinAshi, HeikinAshi.CalculateHeikinAshi, Candle.Empty, Candle.zero]

/-- C2 (amended): after each call the newly computed smoothed candle becomes
the stored previous state; and, provided the newly computed smoothed candle
is not the empty sentinel (which can only happen when its open' and close'
are both zero), the subsequent call's `open'` equals the average of the
previous call's smoothed open and smoothed close. -/
theorem heikinAshi_recurrence_spec (ha : HeikinAshi) (c c2 : Candle) :
    ((ha.CalculateHeikinAshi c).2.PreviousHACandle = (ha.CalculateHeikinAshi c).1) ∧
    ((ha.CalculateHeikinAshi c).1.Empty = false →
      (((ha.CalculateHeikinAshi c).2).CalculateHeikinAshi c2).1.Open
        = ((ha.CalculateHeikinAshi c).1.Open + (ha.CalculateHeikinAshi c).1.Close) / 2) := by
  constructor
  · rfl
  · intro h
    exact calculateHeikinAshi_open_of_not_sentinel (ha.CalculateHeikinAshi c).2 c2 h

/-- C2 witness: feeding `{open:10, close:20, high:25, low:5}` first (its
smoothed candle has open' = close' = 15, not the sentinel), the second call on
`{open:2, close:4, high:4, low:2}` yields
`open' = (15 + 15)/2` = average of the first smoothed open/close. -/
theorem heikinAshi_recurrence_spec_witness :
    ((NewHeikinAshi.CalculateHeikinAshi
        { Candle.zero with Open := 10, Close := 20, High := 25, Low := 5 }).1.Empty = false) ∧
    (((NewHeikinAshi.CalculateHeikinAshi
          { Candle.zero with Open := 10, Close := 20, High := 25, Low := 5 }).2.CalculateHeikinAshi
            { Candle.zero with Open := 2, Close := 4, High := 4, Low := 2 }).1.Open
      = ((NewHeikinAshi.CalculateHeikinAshi
            { Candle.zero with Open := 10, Close := 20, High := 25, Low := 5 }).1.Open
        + (NewHeikinAshi.CalculateHeikinAshi
            { Candle.zero with Open := 10, Close := 20, High := 25, Low := 5 }).1.Close) / 2) :=
  ⟨by norm_num [NewHeikinAshi, HeikinAshi.CalculateHeikinAshi, Candle.Empty, Candle.zero],
   (heikinAshi_recurrence_spec NewHeikinAshi
      { Candle.zero with Open := 10, Close := 20, High := 25, Low := 5 }
      { Candle.zero with Open := 2, Close := 4, High := 4, Low := 2 }).2
     (by norm_num [NewHeikinAshi, HeikinAshi.CalculateHeikinAshi, Candle.Empty, Candle.zero])⟩

/-- C9: after every call to `CalculateHeikinAshi` the stored previous smoothed
candle has `Pair = ""` and `Volume = 0`, so the sentinel test `Empty` on it
reduces to `Open == 0 && Close == 0`; consequently, whenever a computed
smoothed candle has `open' = 0` and `close' = 0`, the next call self-seeds
from the raw candle's own open/close. -/
theorem heikinAshi_sentinel_invariant (ha : HeikinAshi) (c : Candle) :
    ((ha.CalculateHeikinAshi c).2.PreviousHACandle.Pair = "") ∧
    ((ha.CalculateHeikinAshi c).2.PreviousHACandle.Volume = 0) ∧
    ((ha.CalculateHeikinAshi c).2.PreviousHACandle.Empty
      = ((ha.CalculateHeikinAshi c).2.PreviousHACandle.Open == 0
          && (ha.CalculateHeikinAshi c).2.PreviousHACandle.Close == 0)) ∧
    ((ha.CalculateHeikinAshi c).1.Open = 0 → (ha.CalculateHeikinAshi c).1.Close = 0 →
      ∀ c2 : Candle,
        ((ha.CalculateHeikinAshi c).2.CalculateHeikinAshi c2).1.Open
          = (c2.Open + c2.Close) / 2) := by
  have hp : (ha.CalculateHeikinAshi c).2.PreviousHACandle.Pair = "" := rfl
  have hv : (ha.CalculateHeikinAshi c).2.PreviousHACandle.Volume = 0 := rfl
  refine ⟨hp, hv, ?_, ?_⟩
  · simp [Candle.Empty, hp, hv, Bool.and_comm]
  · intro h1 h2 c2
    have h1' : (ha.CalculateHeikinAshi c).2.PreviousHACandle.Open = 0 := h1
    have h2' : (ha.CalculateHeikinAshi c).2.PreviousHACandle.Close = 0 := h2
    have hE : (ha.CalculateHeikinAshi c).2.PreviousHACandle.Empty = true := by
      simp [Candle.Empty, hp, hv, h1', h2']
    exact calculateHeikinAshi_open_of_sentinel (ha.CalculateHeikinAshi c).2 c2 hE

/-- C9 witness: the raw candle `{open:10, close:-10, high:10, low:-10}`
produces the smoothed candle `open' = close' = 0`; the stored previous候
candle then has `Pair = ""`, `Volume = 0`, and the next call on
`{open:2, close:4, high:4, low:2}` self-seeds: `open' = (2 + 4)/2`. -/
theorem heikinAshi_sentinel_invariant_witness :
    ((NewHeikinAshi.CalculateHeikinAshi
        { Candle.zero with Open := 10, Close := -10, High := 10, Low := -10 }).1.Open = 0) ∧
    ((NewHeikinAshi.CalculateHeikinAshi
        { Candle.zero with Open := 10, Close := -10, High := 10, Low := -10 }).1.Close = 0) ∧
    (((NewHeikinAshi.CalculateHeikinAshi
          { Candle.zero with Open := 10, Close := -10, High := 10, Low := -10 }).2.CalculateHeikinAshi
            { Candle.zero with Open := 2, Close := 4, High := 4, Low := 2 }).1.Open
      = (({ Candle.zero with Open := 2, Close := 4, High := 4, Low := 2 : Candle }).Open
          + ({ Candle.zero with Open := 2, Close := 4, High := 4, Low := 2 : Candle }).Close) / 2) :=
  ⟨by norm_num [NewHeikinAshi, HeikinAshi.CalculateHeikinAshi, Candle.Empty, Candle.zero],
   by norm_num [NewHeikinAshi, HeikinAshi.CalculateHeikinAshi, Candle.Empty, Candle.zero],
   (heikinAshi_sentinel_invariant NewHeikinAshi
      { Candle.zero with Open := 10, Close := -10, High := 10, Low := -10 }).2.2.2
     (by norm_num [NewHeikinAshi, HeikinAshi.CalculateHeikinAshi, Candle.Empty, Candle.zero])
     (by norm_num [NewHeikinAshi, HeikinAshi.CalculateHeikinAshi, Candle.Empty, Candle.zero])
     { Candle.zero with Open := 2, Close := 4, High := 4, Low := 2 }⟩

/-- C8: `Candle.Less` orders first by ascending time, then on equal times by
ascending `UpdatedAt`, then lexicographically by pair; in particular for
A (t=1, upd=1, pair="a") and B (t=1, upd=1, pair="b"), `A.Less B = true` and
`B.Less A = false`. -/
theorem candle_less_spec :
    (∀ c j : Candle, c.Less j = true ↔
      (c.Time < j.Time ∨ (c.Time = j.Time ∧ (c.UpdatedAt < j.UpdatedAt ∨
        (c.UpdatedAt = j.UpdatedAt ∧ c.Pair < j.Pair))))) ∧
    (({ Candle.zero with Time := 1, UpdatedAt := 1, Pair := "a" } : Candle).Less
      { Candle.zero with Time := 1, UpdatedAt := 1, Pair := "b" } = true) ∧
    (({ Candle.zero with Time := 1, UpdatedAt := 1, Pair := "b" } : Candle).Less
      { Candle.zero with Time := 1, UpdatedAt := 1, Pair := "a" } = false) := by
  refine ⟨fun c j => ?_,
    by
      have h : ("a" : String) < "b" := String.lt_iff_toList_lt.mpr (by decide)
      simp [Candle.Less, h],
    by
      have h : ¬ ("b" : String) < "a" := fun hc =>
        absurd (String.lt_iff_toList_lt.mp hc) (by decide)
      simp [Candle.Less, h]⟩
  simp only [Candle.Less]
  by_cases h1 : j.Time - c.Time < 0
  · simp only [if_pos h1]
    constructor
    · intro hf; exact absurd hf (by simp)
    · rintro (h | ⟨h, _⟩) <;> omega
  · by_cases h2 : j.Time - c.Time > 0
    · simp only [if_neg h1, if_pos h2]
      constructor
      · intro _; exact Or.inl (by omega)
      · intro _; trivial
    · have ht : c.Time = j.Time := by omega
      by_cases h3 : j.UpdatedAt - c.UpdatedAt < 0
      · simp only [if_neg h1, if_neg h2, if_pos h3]
        constructor
        · intro hf; exact absurd hf (by simp)
        · rintro (h | ⟨_, (h | ⟨h, _⟩)⟩) <;> omega
      · by_cases h4 : j.UpdatedAt - c.UpdatedAt > 0
        · simp only [if_neg h1, if_neg h2, if_neg h3, if_pos h4]
          constructor
          · intro _; exact Or.inr ⟨ht, Or.inl (by omega)⟩
          · intro _; trivial
        · have hu : c.UpdatedAt = j.UpdatedAt := by omega
          simp only [if_neg h1, if_neg h2, if_neg h3, if_neg h4,
            decide_eq_true_eq]
          constructor
          · intro hlt; exact Or.inr ⟨ht, Or.inr ⟨hu, hlt⟩⟩
          · rintro (h | ⟨_, (h | ⟨_, h⟩)⟩)
            · omega
            · omega
            · exact h

/-- Helper: `countP p l = 0` makes `find? p l` return nothing. -/
theorem find_none_of_countP_zero (p : Balance → Bool) (l : List Balance)
    (h : l.countP p = 0) : l.find? p = none := by
  rw [List.find?_eq_none]
  intro x hx
  exact List.countP_eq_zero.mp h x hx

/-- Helper: when each of the two (distinct) symbols matches at most one entry
of the remaining list, and a slot already marked as set can match no further
entry, the scan returns the first match for each symbol, falling back to the
accumulator. -/
theorem balanceScan_eq_find (ft fq : String) (hne : ft ≠ fq) (bs : List Balance) :
    ∀ (aB qB : Balance) (sA sQ : Bool),
      (sA = true → bs.countP (fun x => x.Asset == ft) = 0) →
      (sQ = true → bs.countP (fun x => x.Asset == fq) = 0) →
      bs.countP (fun x => x.Asset == ft) ≤ 1 →
      bs.countP (fun x => x.Asset == fq) ≤ 1 →
      Account.balanceScan ft fq bs aB qB sA sQ
        = ((bs.find? (fun x => x.Asset == ft)).getD aB,
           (bs.find? (fun x => x.Asset == fq)).getD qB) := by
  induction bs with
  | nil => intro aB qB sA sQ _ _ _ _; simp [Account.balanceScan]
  | cons b rest ih =>
    intro aB qB sA sQ hsA hsQ hcA hcQ
    have hqf : ¬ fq = ft := fun h => hne h.symm
    by_cases hbA : b.Asset = ft
    · have hbQ : ¬ b.Asset = fq := by rw [hbA]; exact hne
      have hpA : ((fun x => x.Asset == ft) b) = true := by simp [hbA]
      have hpQ : ¬ ((fun x => x.Asset == fq) b) = true := by simp [hbQ]
      rw [List.countP_cons_of_pos (fun x : Balance => x.Asset == ft) _ hpA] at hcA
      rw [List.countP_cons_of_neg (fun x : Balance => x.Asset == fq) _ hpQ] at hcQ
      have hcA' : rest.countP (fun x => x.Asset == ft) = 0 := by omega
      have hfA : List.find? (fun x => x.Asset == ft) (b :: rest) = some b :=
        List.find?_cons_of_pos _ hpA
      have hfQ : List.find? (fun x => x.Asset == fq) (b :: rest)
          = List.find? (fun x => x.Asset == fq) rest :=
        List.find?_cons_of_neg _ hpQ
      have hnA := find_none_of_countP_zero _ rest hcA'
      cases sQ with
      | true =>
        have hc0 : rest.countP (fun x => x.Asset == fq) = 0 := by
          have h0 := hsQ rfl
          rw [List.countP_cons_of_neg (fun x : Balance => x.Asset == fq) _ hpQ] at h0
          exact h0
        have hnQ := find_none_of_countP_zero _ rest hc0
        simp [Account.balanceScan, hbA, hbQ, hqf, hfA, hfQ, hnQ]
      | false =>
        rw [show Account.balanceScan ft fq (b :: rest) aB qB sA false
            = Account.balanceScan ft fq rest b qB true false by
          simp [Account.balanceScan, hbA, hbQ, hqf]]
        rw [ih b qB true false (fun _ => hcA') (fun h => by cases h) (by omega) hcQ]
        simp [hfA, hfQ, hnA]
    · by_cases hbQ : b.Asset = fq
      · have hpA : ¬ ((fun x => x.Asset == ft) b) = true := by simp [hbA]
        have hpQ : ((fun x => x.Asset == fq) b) = true := by simp [hbQ]
        rw [List.countP_cons_of_neg (fun x : Balance => x.Asset == ft) _ hpA] at hcA
        rw [List.countP_cons_of_pos (fun x : Balance => x.Asset == fq) _ hpQ] at hcQ
        have hcQ' : rest.countP (fun x => x.Asset == fq) = 0 := by omega
        have hfQ : List.find? (fun x => x.Asset == fq) (b :: rest) = some b :=
          List.find?_cons_of_pos _ hpQ
        have hfA : List.find? (fun x => x.Asset == ft) (b :: rest)
            = List.find? (fun x => x.Asset == ft) rest :=
          List.find?_cons_of_neg _ hpA
        have hnQ := find_none_of_countP_zero _ rest hcQ'
        cases sA with
        | true =>
          have hc0 : rest.countP (fun x => x.Asset == ft) = 0 := by
            have h0 := hsA rfl
            rw [List.countP_cons_of_neg (fun x : Balance => x.Asset == ft) _ hpA] at h0
            exact h0
          have hnA := find_none_of_countP_zero _ rest hc0
          simp [Account.balanceScan, hbA, hbQ, hqf, hfA, hfQ, hnA]
        | false =>
          rw [show Account.balanceScan ft fq (b :: rest) aB qB false sQ
              = Account.balanceScan ft fq rest aB b false true by
            simp [Account.balanceScan, hbA, hbQ, hqf]]
          rw [ih aB b false true (fun h => by cases h) (fun _ => hcQ') hcA (by omega)]
          simp [hfA, hfQ, hnQ]
      · have hpA : ¬ ((fun x => x.Asset == ft) b) = true := by simp [hbA]
        have hpQ : ¬ ((fun x => x.Asset == fq) b) = true := by simp [hbQ]
        rw [List.countP_cons_of_neg (fun x : Balance => x.Asset == ft) _ hpA] at hcA
        rw [List.countP_cons_of_neg (fun x : Balance => x.Asset == fq) _ hpQ] at hcQ
        have hsA' : sA = true → rest.countP (fun x => x.Asset == ft) = 0 := by
          intro h
          have h0 := hsA h
          rw [List.countP_cons_of_neg (fun x : Balance => x.Asset == ft) _ hpA] at h0
          exact h0
        have hsQ' : sQ = true → rest.countP (fun x => x.Asset == fq) = 0 := by
          intro h
          have h0 := hsQ h
          rw [List.countP_cons_of_neg (fun x : Balance => x.Asset == fq) _ hpQ] at h0
          exact h0
        have hfA : List.find? (fun x => x.Asset == ft) (b :: rest)
            = List.find? (fun x => x.Asset == ft) rest :=
          List.find?_cons_of_neg _ hpA
        have hfQ : List.find? (fun x => x.Asset == fq) (b :: rest)
            = List.find? (fun x => x.Asset == fq) rest :=
          List.find?_cons_of_neg _ hpQ
        cases sA with
        | true =>
          cases sQ with
          | true =>
            have hnA := find_none_of_countP_zero _ rest (hsA' rfl)
            have hnQ := find_none_of_countP_zero _ rest (hsQ' rfl)
            simp [Account.balanceScan, hbA, hbQ, hqf, hfA, hfQ, hnA, hnQ]
          | false =>
            rw [show Account.balanceScan ft fq (b :: rest) aB qB true false
                = Account.balanceScan ft fq rest aB qB true false by
              simp [Account.balanceScan, hbA, hbQ, hqf]]
            rw [ih aB qB true false hsA' (fun h => by cases h) hcA hcQ]
            simp [hfA, hfQ]
        | false =>
          rw [show Account.balanceScan ft fq (b :: rest) aB qB false sQ
              = Account.balanceScan ft fq rest aB qB false sQ by
            simp [Account.balanceScan, hbA, hbQ, hqf]]
          rw [ih aB qB false sQ (fun h => by cases h) hsQ' hcA hcQ]
          simp [hfA, hfQ]

/-- C4 counterexample: the claim "returns the first Balance entry whose asset
equals assetTick" fails when the asset symbol matches several entries and the
quote symbol is absent: on balances `[{BTC,free:1},{BTC,free:9}]`,
`Balance("BTC","USDT")` returns the second (last-scanned) BTC entry, although
the first matching entry is `{BTC,free:1}`. -/
theorem account_balance_counterexample :
    ((Account.mk [⟨"BTC", 1, 0, 0⟩, ⟨"BTC", 9, 0, 0⟩]).Balance "BTC" "USDT").1
      = ⟨"BTC", 9, 0, 0⟩ ∧
    ([⟨"BTC", 1, 0, 0⟩, ⟨"BTC", 9, 0, 0⟩] : List Balance).find?
      (fun x => x.Asset == "BTC") = some ⟨"BTC", 1, 0, 0⟩ ∧
    (⟨"BTC", 9, 0, 0⟩ : Balance) ≠ ⟨"BTC", 1, 0, 0⟩ := by
  refine ⟨?_, by decide, by decide⟩
  decide

/-- C4 (amended): `Balance(assetTick, quoteTick)` performs a linear scan; when
the two symbols are distinct and each matches at most one entry, it returns
the first matching entry for each symbol (with duplicate entries for a symbol,
later matches overwrite earlier ones until the scan breaks after both
symbols have been found); for a symbol with no matching entry it returns a
zero-value Balance in that slot, with no error. -/
theorem account_balance_spec (a : Account) (assetTick quoteTick : String)
    (hne : assetTick ≠ quoteTick)
    (hA : a.Balances.countP (fun x => x.Asset == assetTick) ≤ 1)
    (hQ : a.Balances.countP (fun x => x.Asset == quoteTick) ≤ 1) :
    a.Balance assetTick quoteTick
      = ((a.Balances.find? (fun x => x.Asset == assetTick)).getD Balance.zero,
         (a.Balances.find? (fun x => x.Asset == quoteTick)).getD Balance.zero) :=
  balanceScan_eq_find assetTick quoteTick hne a.Balances Balance.zero Balance.zero
    false false (fun h => by cases h) (fun h => by cases h) hA hQ

/-- C4 witness: on balances `[{BTC,free:1,lock:0.5},{ETH,free:2}]`,
`Balance("BTC","USDT")` returns the BTC entry and a zero-valued Balance for
the absent "USDT". -/
theorem account_balance_spec_witness :
    ("BTC" ≠ "USDT") ∧
    ((Account.mk [⟨"BTC", 1, 1/2, 0⟩, ⟨"ETH", 2, 0, 0⟩]).Balance "BTC" "USDT"
      = ((([⟨"BTC", 1, 1/2, 0⟩, ⟨"ETH", 2, 0, 0⟩] : List Balance).find?
            (fun x => x.Asset == "BTC")).getD Balance.zero,
         (([⟨"BTC", 1, 1/2, 0⟩, ⟨"ETH", 2, 0, 0⟩] : List Balance).find?
            (fun x => x.Asset == "USDT")).getD Balance.zero)) ∧
    ((Account.mk [⟨"BTC", 1, 1/2, 0⟩, ⟨"ETH", 2, 0, 0⟩]).Balance "BTC" "USDT").2
      = Balance.zero :=
  ⟨by decide,
   account_balance_spec (Account.mk [⟨"BTC", 1, 1/2, 0⟩, ⟨"ETH", 2, 0, 0⟩])
     "BTC" "USDT" (by decide) (by decide) (by decide),
   by decide⟩

/-- Helper: reading a map over a range below the bound gives the mapped
function's value. -/
theorem getD_map_range {α : Type} (d : α) (f : ℕ → α) (L i : ℕ) (h : i < L) :
    ((List.range L).map f).getD i d = f i := by
  rw [List.getD_eq_getElem?_getD, List.getElem?_map, List.getElem?_range h]
  rfl

/-- C6: for a series whose `Close`, `Open`, `High` and `Low` sequences all
have length `L`, `HL2`, `HLC3` and `OHLC4` each return a new sequence of
length `L` whose value at every index `i < L` is `(high+low)/2`,
`(high+low+close)/3` and `(open+high+low+close)/4` respectively. -/
theorem price_average_spec (df : OHLC) (L : ℕ)
    (hC : df.Close.length = L) (hO : df.Open.length = L)
    (hH : df.High.length = L) (hL : df.Low.length = L) :
    (df.HL2.length = L ∧ df.HLC3.length = L ∧ df.OHLC4.length = L) ∧
    ∀ i, i < L →
      (df.HL2.getD i 0 = (df.High.getD i 0 + df.Low.getD i 0) / 2 ∧
       df.HLC3.getD i 0
         = (df.High.getD i 0 + df.Low.getD i 0 + df.Close.getD i 0) / 3 ∧
       df.OHLC4.getD i 0
         = (df.Open.getD i 0 + df.High.getD i 0 + df.Low.getD i 0
            + df.Close.getD i 0) / 4) := by
  refine ⟨⟨by simp [OHLC.HL2, hC], by simp [OHLC.HLC3, hC], by simp [OHLC.OHLC4, hC]⟩,
    fun i hi => ?_⟩
  have hi' : i < df.Close.length := by omega
  exact ⟨getD_map_range 0 _ _ i hi', getD_map_range 0 _ _ i hi',
    getD_map_range 0 _ _ i hi'⟩

/-- C6 witness: the three indicator sequences on the concrete three-entry
series have length 3 and satisfy the per-index formulas at index 1. -/
theorem price_average_spec_witness :
    (ohlc3.HL2.length = 3 ∧ ohlc3.HLC3.length = 3 ∧ ohlc3.OHLC4.length = 3) ∧
    (ohlc3.HL2.getD 1 0 = (ohlc3.High.getD 1 0 + ohlc3.Low.getD 1 0) / 2 ∧
     ohlc3.HLC3.getD 1 0
       = (ohlc3.High.getD 1 0 + ohlc3.Low.getD 1 0 + ohlc3.Close.getD 1 0) / 3 ∧
     ohlc3.OHLC4.getD 1 0
       = (ohlc3.Open.getD 1 0 + ohlc3.High.getD 1 0 + ohlc3.Low.getD 1 0
          + ohlc3.Close.getD 1 0) / 4) :=
  ⟨(price_average_spec ohlc3 3 rfl rfl rfl rfl).1,
   (price_average_spec ohlc3 3 rfl rfl rfl rfl).2 1 (by decide)⟩

/-- C7: on a non-empty series of length `len`, `Last []` (no offset) equals
`Candle (len-1)` and `Last [k]` equals `Candle (len-1-k)` for `k < len`;
on an empty series `Last []` returns the zero-value Candle, which satisfies
`Empty = true`. -/
theorem last_candle_spec (df : OHLC) (k : Nat) :
    (df.Close.length = 0 →
      df.Last [] = Candle.zero ∧ (df.Last []).Empty = true) ∧
    (0 < df.Close.length →
      df.Last [] = df.Candle (df.Close.length - 1)) ∧
    (k < df.Close.length →
      df.Last [k] = df.Candle (df.Close.length - 1 - k)) := by
  refine ⟨fun h => ?_, fun h => ?_, fun h => ?_⟩
  · have hz : df.Last [] = Candle.zero := by simp [OHLC.Last, h]
    exact ⟨hz, by rw [hz]; decide⟩
  · have hnz : ¬ df.Close.length = 0 := by omega
    simp [OHLC.Last, hnz]
  · have hnz : ¬ df.Close.length = 0 := by omega
    simp [OHLC.Last, hnz]

/-- C7 witness: on the empty series `Last []` is the zero candle and Empty;
on the three-entry series `Last []` is `Candle 2` and `Last [1]` is
`Candle 1`. -/
theorem last_candle_spec_witness :
    (ohlc0.Last [] = Candle.zero ∧ (ohlc0.Last []).Empty = true) ∧
    (ohlc3.Last [] = ohlc3.Candle (ohlc3.Close.length - 1)) ∧
    (ohlc3.Last [1] = ohlc3.Candle (ohlc3.Close.length - 1 - 1)) :=
  ⟨(last_candle_spec ohlc0 0).1 rfl,
   (last_candle_spec ohlc3 0).2.1 (by decide),
   (last_candle_spec ohlc3 1).2.2 (by decide)⟩

/-- Helper: dropping `(L - n : Int).toNat` from a list of length `L` is
dropping `L - n.toNat` (for negative `n` both drops empty the list). -/
theorem drop_int_toNat {α : Type} (l : List α) (L : ℕ) (n : Int)
    (hl : l.length = L) :
    l.drop ((L : Int) - n).toNat = l.drop (L - n.toNat) := by
  rcases le_or_lt 0 n with hn | hn
  · congr 1
    omega
  · have h1 : l.length ≤ ((L : Int) - n).toNat := by omega
    have h2 : l.length ≤ L - n.toNat := by omega
    rw [List.drop_eq_nil_of_le h1, List.drop_eq_nil_of_le h2]

/-- C5: on a dataframe whose six core sequences all have length `L`,
`Sample n` returns the input unchanged when `L ≤ n` (start index ≤ 0);
otherwise it windows the five core sequences and the time sequence to the
last `n` entries while the custom metadata map (and the remaining fields)
are passed through unchanged. -/
theorem sample_spec (df : Dataframe) (n : Int) (L : ℕ)
    (hC : df.Close.length = L) (hO : df.Open.length = L)
    (hH : df.High.length = L) (hL : df.Low.length = L)
    (hV : df.Volume.length = L) (hT : df.Time.length = L) :
    ((L : Int) ≤ n → df.Sample n = df) ∧
    (n < (L : Int) →
      ((df.Sample n).Close = df.Close.drop (L - n.toNat) ∧
       (df.Sample n).Open = df.Open.drop (L - n.toNat) ∧
       (df.Sample n).Low = df.Low.drop (L - n.toNat) ∧
       (df.Sample n).High = df.High.drop (L - n.toNat) ∧
       (df.Sample n).Volume = df.Volume.drop (L - n.toNat) ∧
       (df.Sample n).Time = df.Time.drop (L - n.toNat)) ∧
      (df.Sample n).Close.length = n.toNat ∧
      (df.Sample n).Metadata = df.Metadata ∧
      (df.Sample n).Pair = df.Pair ∧
      (df.Sample n).LastUpdate = df.LastUpdate) := by
  constructor
  · intro h
    have hc : ((df.Time.length : Int) - n ≤ 0) := by rw [hT]; omega
    simp [Dataframe.Sample, hc]
  · intro h
    have hc : ¬ ((df.Time.length : Int) - n ≤ 0) := by rw [hT]; omega
    have hdC : df.Close.drop ((df.Time.length : Int) - n).toNat
        = df.Close.drop (L - n.toNat) := by rw [hT]; exact drop_int_toNat _ _ _ hC
    have hdO : df.Open.drop ((df.Time.length : Int) - n).toNat
        = df.Open.drop (L - n.toNat) := by rw [hT]; exact drop_int_toNat _ _ _ hO
    have hdL : df.Low.drop ((df.Time.length : Int) - n).toNat
        = df.Low.drop (L - n.toNat) := by rw [hT]; exact drop_int_toNat _ _ _ hL
    have hdH : df.High.drop ((df.Time.length : Int) - n).toNat
        = df.High.drop (L - n.toNat) := by rw [hT]; exact drop_int_toNat _ _ _ hH
    have hdV : df.Volume.drop ((df.Time.length : Int) - n).toNat
        = df.Volume.drop (L - n.toNat) := by rw [hT]; exact drop_int_toNat _ _ _ hV
    have hdT : df.Time.drop ((df.Time.length : Int) - n).toNat
        = df.Time.drop (L - n.toNat) := by rw [hT]; exact drop_int_toNat _ _ _ hT
    refine ⟨⟨?_, ?_, ?_, ?_, ?_, ?_⟩, ?_, ?_, ?_, ?_⟩ <;>
      simp [Dataframe.Sample, hc, hdC, hdO, hdL, hdH, hdV, hdT]
    omega

/-- C5 witness: sampling the concrete three-entry dataframe with `n = 2`
windows the six core sequences to the last 2 entries and shares the
metadata map unchanged. -/
theorem sample_spec_witness :
    (((3 : ℕ) : Int) ≤ 2 → dfSampleEx.Sample 2 = dfSampleEx) ∧
    ((2 : Int) < ((3 : ℕ) : Int) →
      ((dfSampleEx.Sample 2).Close = dfSampleEx.Close.drop (3 - (2 : Int).toNat) ∧
       (dfSampleEx.Sample 2).Open = dfSampleEx.Open.drop (3 - (2 : Int).toNat) ∧
       (dfSampleEx.Sample 2).Low = dfSampleEx.Low.drop (3 - (2 : Int).toNat) ∧
       (dfSampleEx.Sample 2).High = dfSampleEx.High.drop (3 - (2 : Int).toNat) ∧
       (dfSampleEx.Sample 2).Volume = dfSampleEx.Volume.drop (3 - (2 : Int).toNat) ∧
       (dfSampleEx.Sample 2).Time = dfSampleEx.Time.drop (3 - (2 : Int).toNat)) ∧
      (dfSampleEx.Sample 2).Close.length = (2 : Int).toNat ∧
      (dfSampleEx.Sample 2).Metadata = dfSampleEx.Metadata ∧
      (dfSampleEx.Sample 2).Pair = dfSampleEx.Pair ∧
      (dfSampleEx.Sample 2).LastUpdate = dfSampleEx.LastUpdate) :=
  sample_spec dfSampleEx 2 3 rfl rfl rfl rfl rfl rfl

/-- Helper: the scan produces one smoothed candle per input candle. -/
theorem haScan_length (ha : HeikinAshi) (cs : List Candle) :
    (haScan ha cs).length = cs.length := by
  induction cs generalizing ha with
  | nil => rfl
  | cons c cs ih => simp [haScan, ih]

/-- Helper: scanning one more candle appends its smoothed candle. -/
theorem haScan_append_singleton (ha : HeikinAshi) (xs : List Candle) (x : Candle) :
    haScan ha (xs ++ [x]) = haScan ha xs ++ [(x.ToHeikinAshi (haScanState ha xs)).1] := by
  induction xs generalizing ha with
  | nil => rfl
  | cons c cs ih => simp [haScan, haScanState, ih]

/-- Helper: the recurrence state after scanning one more candle. -/
theorem haScanState_append_singleton (ha : HeikinAshi) (xs : List Candle) (x : Candle) :
    haScanState ha (xs ++ [x]) = (x.ToHeikinAshi (haScanState ha xs)).2 := by
  induction xs generalizing ha with
  | nil => rfl
  | cons c cs ih => simp [haScanState, ih]

/-- Helper: each smoothed candle keeps the raw candle's volume. -/
theorem haScan_volume (ha : HeikinAshi) (cs : List Candle) :
    (haScan ha cs).map Candle.Volume = cs.map Candle.Volume := by
  induction cs generalizing ha with
  | nil => rfl
  | cons c cs ih => simp [haScan, Candle.ToHeikinAshi, ih]

/-- Helper: each smoothed candle keeps the raw candle's time. -/
theorem haScan_time (ha : HeikinAshi) (cs : List Candle) :
    (haScan ha cs).map Candle.Time = cs.map Candle.Time := by
  induction cs generalizing ha with
  | nil => rfl
  | cons c cs ih => simp [haScan, Candle.ToHeikinAshi, ih]

/-- Helper: default read just past a prefix reads the suffix's head. -/
theorem getD_append_self {α : Type} (d : α) (A B : List α) :
    (A ++ B).getD A.length d = B.getD 0 d := by
  rw [List.getD_eq_getElem?_getD, List.getD_eq_getElem?_getD,
    List.getElem?_append_right (Nat.le_refl _)]
  simp

/-- Helper: writing just past a prefix writes the suffix's head. -/
theorem set_append_self {α : Type} (A B : List α) (x : α) :
    (A ++ B).set A.length x = A ++ B.set 0 x := by
  rw [List.set_append_right _ _ (Nat.le_refl _)]
  simp

/-- Helper: a drop below the length starts with the default read. -/
theorem drop_eq_getD_cons {α : Type} (d : α) (l : List α) (k : ℕ)
    (h : k < l.length) :
    l.drop k = l.getD k d :: l.drop (k + 1) := by
  rw [List.drop_eq_getElem_cons h]
  congr 1
  rw [List.getD_eq_getElem?_getD, List.getElem?_eq_getElem h]
  rfl

/-- Helper: reading every position of a list by index rebuilds the list. -/
theorem map_range_getD {α : Type} (d : α) (l : List α) :
    (List.range l.length).map (fun i => l.getD i d) = l := by
  induction l with
  | nil => rfl
  | cons x xs ih =>
    rw [List.length_cons, List.range_succ_eq_map]
    simp only [List.map_cons, List.map_map]
    rw [show ((fun i => List.getD (x :: xs) i d) ∘ Nat.succ)
        = fun i => xs.getD i d from rfl]
    have ih' : List.map (fun i => xs[i]?.getD d) (List.range xs.length) = xs := by
      simpa using ih
    simp [ih']

/-- Helper: default read just past a prefix of known length. -/
theorem getD_append_len {α : Type} (d : α) (A B : List α) (k : ℕ)
    (h : A.length = k) : (A ++ B).getD k d = B.getD 0 d := by
  subst h
  exact getD_append_self d A B

/-- Helper: write just past a prefix of known length. -/
theorem set_append_len {α : Type} (A B : List α) (x : α) (k : ℕ)
    (h : A.length = k) : (A ++ B).set k x = A ++ B.set 0 x := by
  subst h
  exact set_append_self A B x

/-- Helper: the head of a drop below the length. -/
theorem getD_drop_zero {α : Type} (d : α) (l : List α) (k : ℕ)
    (h : k < l.length) : (l.drop k).getD 0 d = l.getD k d := by
  rw [drop_eq_getD_cons d l k h]
  rfl

/-- Helper: one loop iteration of `ToHeikinAshi` on a state whose first `k`
positions have already been smoothed: it smooths position `k` through the
recurrence state `s` and leaves positions past `k` untouched. -/
theorem haStep_mid (df : OHLC) (L k : ℕ)
    (hC : df.Close.length = L) (hO : df.Open.length = L) (hH : df.High.length = L)
    (hL : df.Low.length = L) (hV : df.Volume.length = L)
    (hkL : k < L)
    (pC pO pH pLo pV2 pCP : List ℚ) (pB : List Bool) (s : HeikinAshi)
    (hpC : pC.length = k) (hpO : pO.length = k) (hpH : pH.length = k)
    (hpLo : pLo.length = k) (hpV : pV2.length = k) (hpCP : pCP.length = k)
    (hpB : pB.length = k) :
    OHLC.haStep
      ({ df with
          Close := pC ++ df.Close.drop k
          Open := pO ++ df.Open.drop k
          High := pH ++ df.High.drop k
          Low := pLo ++ df.Low.drop k
          Volume := pV2 ++ df.Volume.drop k
          ChangePercent := pCP ++ List.replicate (L - k) 0
          IsBullMarket := pB ++ List.replicate (L - k) false }, s) k
      = ({ df with
          Close := (pC ++ [((df.Candle k).ToHeikinAshi s).1.Close])
            ++ df.Close.drop (k + 1)
          Open := (pO ++ [((df.Candle k).ToHeikinAshi s).1.Open])
            ++ df.Open.drop (k + 1)
          High := (pH ++ [((df.Candle k).ToHeikinAshi s).1.High])
            ++ df.High.drop (k + 1)
          Low := (pLo ++ [((df.Candle k).ToHeikinAshi s).1.Low])
            ++ df.Low.drop (k + 1)
          Volume := (pV2 ++ [((df.Candle k).ToHeikinAshi s).1.Volume])
            ++ df.Volume.drop (k + 1)
          ChangePercent := (pCP ++ [(((df.Candle k).ToHeikinAshi s).1.Close
              - ((df.Candle k).ToHeikinAshi s).1.Open)
              / ((df.Candle k).ToHeikinAshi s).1.Open])
            ++ List.replicate (L - (k + 1)) 0
          IsBullMarket := (pB ++ [decide (((df.Candle k).ToHeikinAshi s).1.Close
              > ((df.Candle k).ToHeikinAshi s).1.Open)])
            ++ List.replicate (L - (k + 1)) false },
        ((df.Candle k).ToHeikinAshi s).2) := by
  have hkC : k < df.Close.length := by omega
  have hkO : k < df.Open.length := by omega
  have hkH : k < df.High.length := by omega
  have hkLo : k < df.Low.length := by omega
  have hkV : k < df.Volume.length := by omega
  have hrep0 : List.replicate (L - k) (0 : ℚ)
      = 0 :: List.replicate (L - (k + 1)) 0 := by
    rw [show L - k = (L - (k + 1)) + 1 by omega, List.replicate_succ]
  have hrepB : List.replicate (L - k) false
      = false :: List.replicate (L - (k + 1)) false := by
    rw [show L - k = (L - (k + 1)) + 1 by omega, List.replicate_succ]
  have hcand :
      OHLC.Candle
        { df with
          Close := pC ++ df.Close.drop k
          Open := pO ++ df.Open.drop k
          High := pH ++ df.High.drop k
          Low := pLo ++ df.Low.drop k
          Volume := pV2 ++ df.Volume.drop k
          ChangePercent := pCP ++ List.replicate (L - k) 0
          IsBullMarket := pB ++ List.replicate (L - k) false } k
        = df.Candle k := by
    simp only [OHLC.Candle]
    rw [getD_append_len 0 _ _ k hpC, getD_drop_zero 0 _ k hkC,
      getD_append_len 0 _ _ k hpO, getD_drop_zero 0 _ k hkO,
      getD_append_len 0 _ _ k hpH, getD_drop_zero 0 _ k hkH,
      getD_append_len 0 _ _ k hpLo, getD_drop_zero 0 _ k hkLo,
      getD_append_len 0 _ _ k hpV, getD_drop_zero 0 _ k hkV]
  simp only [OHLC.haStep, hcand]
  rw [set_append_len _ _ _ k hpC, drop_eq_getD_cons (0 : ℚ) _ k hkC,
    set_append_len _ _ _ k hpO, drop_eq_getD_cons (0 : ℚ) _ k hkO,
    set_append_len _ _ _ k hpH, drop_eq_getD_cons (0 : ℚ) _ k hkH,
    set_append_len _ _ _ k hpLo, drop_eq_getD_cons (0 : ℚ) _ k hkLo,
    set_append_len _ _ _ k hpV, drop_eq_getD_cons (0 : ℚ) _ k hkV]
  simp only [List.set_cons_zero]
  have hgC : ∀ t : List ℚ, (pC ++ t).getD k 0 = t.getD 0 0 := fun t =>
    getD_append_len 0 pC t k hpC
  have hgO : ∀ t : List ℚ, (pO ++ t).getD k 0 = t.getD 0 0 := fun t =>
    getD_append_len 0 pO t k hpO
  simp only [hgC, hgO, List.getD_cons_zero]
  rw [set_append_len _ _ _ k hpCP, hrep0, List.set_cons_zero]
  by_cases hbull : ((df.Candle k).ToHeikinAshi s).1.Close
      > ((df.Candle k).ToHeikinAshi s).1.Open
  · rw [if_pos hbull, set_append_len _ _ _ k hpB, hrepB, List.set_cons_zero,
      decide_eq_true hbull]
    simp [List.append_assoc]
  · rw [if_neg hbull, hrepB]
    rw [show decide (((df.Candle k).ToHeikinAshi s).1.Close
        > ((df.Candle k).ToHeikinAshi s).1.Open) = false from by
      simpa using hbull]
    simp [List.append_assoc]

/-- Helper: after `k` loop iterations of `ToHeikinAshi`, the first `k`
positions hold the smoothed series of the first `k` raw candles, the
remaining positions are untouched, and the recurrence state is the scan
state of those `k` candles. -/
theorem toHeikinAshi_loop (df : OHLC) (L : ℕ)
    (hC : df.Close.length = L) (hO : df.Open.length = L) (hH : df.High.length = L)
    (hL : df.Low.length = L) (hV : df.Volume.length = L) :
    ∀ k, k ≤ L →
    (List.range k).foldl OHLC.haStep
      ({ df with
          ChangePercent := List.replicate df.Close.length 0
          IsBullMarket := List.replicate df.Close.length false }, NewHeikinAshi)
      = ({ df with
          Close := (haScan NewHeikinAshi ((List.range k).map df.Candle)).map
            Candle.Close ++ df.Close.drop k
          Open := (haScan NewHeikinAshi ((List.range k).map df.Candle)).map
            Candle.Open ++ df.Open.drop k
          High := (haScan NewHeikinAshi ((List.range k).map df.Candle)).map
            Candle.High ++ df.High.drop k
          Low := (haScan NewHeikinAshi ((List.range k).map df.Candle)).map
            Candle.Low ++ df.Low.drop k
          Volume := (haScan NewHeikinAshi ((List.range k).map df.Candle)).map
            Candle.Volume ++ df.Volume.drop k
          ChangePercent := (haScan NewHeikinAshi ((List.range k).map df.Candle)).map
            (fun c => (c.Close - c.Open) / c.Open) ++ List.replicate (L - k) 0
          IsBullMarket := (haScan NewHeikinAshi ((List.range k).map df.Candle)).map
            (fun c => decide (c.Close > c.Open)) ++ List.replicate (L - k) false },
        haScanState NewHeikinAshi ((List.range k).map df.Candle)) := by
  intro k
  induction k with
  | zero =>
    intro _
    simp [haScan, haScanState, hC]
  | succ k ih =>
    intro hk1
    have hkL : k < L := by omega
    rw [List.range_succ, List.foldl_append, List.foldl_cons, List.foldl_nil,
      ih (by omega)]
    have hlen : (haScan NewHeikinAshi ((List.range k).map df.Candle)).length = k := by
      rw [haScan_length]
      simp
    rw [haStep_mid df L k hC hO hH hL hV hkL _ _ _ _ _ _ _ _
      (by simp [hlen]) (by simp [hlen]) (by simp [hlen]) (by simp [hlen])
      (by simp [hlen]) (by simp [hlen]) (by simp [hlen])]
    simp only [List.range_succ, List.map_append, List.map_cons, List.map_nil,
      haScan_append_singleton, haScanState_append_singleton]

/-- Helper: on a length-aligned series, `ToHeikinAshi` equals the functional
scan of the raw per-index candles through one fresh recurrence. -/
theorem toHeikinAshi_eq_scan (df : OHLC) (L : ℕ)
    (hC : df.Close.length = L) (hO : df.Open.length = L) (hH : df.High.length = L)
    (hL : df.Low.length = L) (hV : df.Volume.length = L) (hT : df.Time.length = L) :
    df.ToHeikinAshi
      = { df with
          Close := (haScan NewHeikinAshi ((List.range L).map df.Candle)).map
            Candle.Close
          Open := (haScan NewHeikinAshi ((List.range L).map df.Candle)).map
            Candle.Open
          High := (haScan NewHeikinAshi ((List.range L).map df.Candle)).map
            Candle.High
          Low := (haScan NewHeikinAshi ((List.range L).map df.Candle)).map
            Candle.Low
          Volume := (haScan NewHeikinAshi ((List.range L).map df.Candle)).map
            Candle.Volume
          ChangePercent := (haScan NewHeikinAshi ((List.range L).map df.Candle)).map
            (fun c => (c.Close - c.Open) / c.Open)
          IsBullMarket := (haScan NewHeikinAshi ((List.range L).map df.Candle)).map
            (fun c => decide (c.Close > c.Open))
          IsHeikinAshi := true } := by
  have hdC : df.Close.drop L = [] := List.drop_eq_nil_of_le (by omega)
  have hdO : df.Open.drop L = [] := List.drop_eq_nil_of_le (by omega)
  have hdH : df.High.drop L = [] := List.drop_eq_nil_of_le (by omega)
  have hdL : df.Low.drop L = [] := List.drop_eq_nil_of_le (by omega)
  have hdV : df.Volume.drop L = [] := List.drop_eq_nil_of_le (by omega)
  simp only [OHLC.ToHeikinAshi]
  rw [show ({ df with
      ChangePercent := List.replicate df.Close.length 0
      IsBullMarket := List.replicate df.Close.length false } : OHLC).Time
    = df.Time from rfl, hT,
    toHeikinAshi_loop df L hC hO hH hL hV L (Nat.le_refl L)]
  simp [hdC, hdO, hdH, hdL, hdV]

/-- C3: for a length-aligned series, `ToHeikinAshi` creates one fresh
recurrence and, for each index `i` in ascending order, overwrites
open/close/low/high/volume at `i` with the smoothed candle computed from
`Candle i` through that recurrence (i.e. the whole container equals the
serial scan of the raw candles), sets `ChangePercent i` to
`(close-open)/open` of the smoothed values, sets the bull-market flag at `i`
true iff smoothed close > smoothed open, and finally sets
`IsHeikinAshi = true` on the returned (mutated) receiver. -/
theorem toHeikinAshi_spec (df : OHLC) (L : ℕ)
    (hC : df.Close.length = L) (hO : df.Open.length = L) (hH : df.High.length = L)
    (hL : df.Low.length = L) (hV : df.Volume.length = L) (hT : df.Time.length = L) :
    df.ToHeikinAshi
      = { df with
          Close := (haScan NewHeikinAshi ((List.range L).map df.Candle)).map
            Candle.Close
          Open := (haScan NewHeikinAshi ((List.range L).map df.Candle)).map
            Candle.Open
          High := (haScan NewHeikinAshi ((List.range L).map df.Candle)).map
            Candle.High
          Low := (haScan NewHeikinAshi ((List.range L).map df.Candle)).map
            Candle.Low
          Volume := (haScan NewHeikinAshi ((List.range L).map df.Candle)).map
            Candle.Volume
          ChangePercent := (haScan NewHeikinAshi ((List.range L).map df.Candle)).map
            (fun c => (c.Close - c.Open) / c.Open)
          IsBullMarket := (haScan NewHeikinAshi ((List.range L).map df.Candle)).map
            (fun c => decide (c.Close > c.Open))
          IsHeikinAshi := true } :=
  toHeikinAshi_eq_scan df L hC hO hH hL hV hT

/-- C3 witness: the characterization applied to the concrete three-entry
series. -/
theorem toHeikinAshi_spec_witness :
    ohlc3.ToHeikinAshi
      = { ohlc3 with
          Close := (haScan NewHeikinAshi ((List.range 3).map ohlc3.Candle)).map
            Candle.Close
          Open := (haScan NewHeikinAshi ((List.range 3).map ohlc3.Candle)).map
            Candle.Open
          High := (haScan NewHeikinAshi ((List.range 3).map ohlc3.Candle)).map
            Candle.High
          Low := (haScan NewHeikinAshi ((List.range 3).map ohlc3.Candle)).map
            Candle.Low
          Volume := (haScan NewHeikinAshi ((List.range 3).map ohlc3.Candle)).map
            Candle.Volume
          ChangePercent := (haScan NewHeikinAshi ((List.range 3).map ohlc3.Candle)).map
            (fun c => (c.Close - c.Open) / c.Open)
          IsBullMarket := (haScan NewHeikinAshi ((List.range 3).map ohlc3.Candle)).map
            (fun c => decide (c.Close > c.Open))
          IsHeikinAshi := true } :=
  toHeikinAshi_spec ohlc3 3 rfl rfl rfl rfl rfl rfl

/-- C10: `ToHeikinAshi` on a length-aligned series leaves `Time` and
`Volume` equal to their original values: the per-candle smoothing copies
the raw candle's volume and time through unchanged, even though `Volume`
is written back at every index. -/
theorem toHeikinAshi_preserves_time_volume (df : OHLC) (L : ℕ)
    (hC : df.Close.length = L) (hO : df.Open.length = L) (hH : df.High.length = L)
    (hL : df.Low.length = L) (hV : df.Volume.length = L) (hT : df.Time.length = L) :
    df.ToHeikinAshi.Time = df.Time ∧ df.ToHeikinAshi.Volume = df.Volume := by
  rw [toHeikinAshi_eq_scan df L hC hO hH hL hV hT]
  refine ⟨rfl, ?_⟩
  show (haScan NewHeikinAshi ((List.range L).map df.Candle)).map Candle.Volume
    = df.Volume
  rw [haScan_volume, List.map_map,
    show (Candle.Volume ∘ df.Candle) = fun i => df.Volume.getD i 0 from rfl,
    ← hV]
  exact map_range_getD 0 df.Volume

/-- C10 witness: on the concrete three-entry series, the transform keeps
`Time` and `Volume` unchanged. -/
theorem toHeikinAshi_preserves_time_volume_witness :
    ohlc3.ToHeikinAshi.Time = ohlc3.Time ∧
    ohlc3.ToHeikinAshi.Volume = ohlc3.Volume :=
  toHeikinAshi_preserves_time_volume ohlc3 3 rfl rfl rfl rfl rfl rfl
